import Mathlib

/-!
Verification of the vector-tiles reader (tile_source.py and vt_reader.py).

The Python sources are shallowly embedded: the stateful tile sources become
pure functions that take the mutable parts of the instance state (the
loaded-tile list, the metadata cache) and return the result together with the
new state and the observable progress events.  The asynchronous cancel flag is
modelled by a schedule: `cancelAt = some c` means that the c-th read of the
flag (counting the reads performed by this call, 0-based) and every later read
return true, `none` means the flag is never set during the call.  External
collaborators that are not part of the two source files (the sqlite engine,
the HTTP fetcher, tile_helper.get_all_tiles, GlobalMercator.TileBounds) are
modelled from the spec, each marked in its doc comment.
-/

namespace VTR

/-- Observable calls to the progress handler and the per-item callback.
`maxProgress n` is the announcement of a bounded task of size n, `progress n`
a report of the current count, `forEach` an invocation of the optional
per-item callback passed to load_tiles. -/
inductive Event where
  | maxProgress (n : ℕ)
  | forEach
  | progress (n : ℕ)
deriving DecidableEq

/-- tile_helper.VectorTile as constructed by both sources:
VectorTile(scheme, zoom_level, column, row). -/
structure VectorTile where
  scheme : String
  zoom_level : ℤ
  column : ℤ
  row : ℤ
deriving DecidableEq

/-- One row of the tiles table of an mbtiles archive. The payload bytes are
opaque to tile_source.py and modelled by a number. -/
structure TileRow where
  zoom_level : ℤ
  tile_column : ℤ
  tile_row : ℤ
  tile_data : ℕ
deriving DecidableEq

/-- The sqlite archive behind an MBTilesSource: the tiles table, the metadata
table, and a flag modelling a connection or query failure (when set, every
query raises; the Python code catches the exception). -/
structure TileDB where
  tiles : List TileRow
  metadata : List (String × String)
  fail : Bool
deriving DecidableEq

/-- A bounds argument: ((col_min_or_max, row_min_or_max), (col, row)) exactly
as passed to load_tiles; the archive source normalizes min/max itself. -/
abbrev Bounds := (ℤ × ℤ) × (ℤ × ℤ)

/-- Advance the cancel-flag schedule past one read of the flag.  A schedule
that already reached 0 stays at 0: once the flag is set it stays set. -/
def decCancel : Option ℕ → Option ℕ := Option.map Nat.pred

namespace MBTilesSource

/-- A key of the loaded-tiles list: the tuple (zoom, col, row) appended by
_add_loaded_tile.  The zoom component is the zoom_level argument of
load_tiles, which may be None. -/
abbrev Key := Option ℤ × ℤ × ℤ

/-- The WHERE clause built by MBTilesSource.load_tiles, applied to one row:
exact zoom_level match when a zoom filter is given, and column/row BETWEEN
the normalized bounds when bounds are given. -/
def rowMatches (zoom : Option ℤ) (bounds : Option Bounds) (r : TileRow) : Bool :=
  (match zoom with
   | some z => r.zoom_level == z
   | none => true) &&
  (match bounds with
   | some b =>
     decide (min b.1.1 b.2.1 ≤ r.tile_column ∧ r.tile_column ≤ max b.1.1 b.2.1 ∧
       min b.1.2 b.2.2 ≤ r.tile_row ∧ r.tile_row ≤ max b.1.2 b.2.2)
   | none => true)

/-- The LIMIT clause: present exactly when max_tiles is not None. -/
def applyLimit (maxTiles : Option ℕ) (l : List TileRow) : List TileRow :=
  match maxTiles with
  | none => l
  | some m => l.take m

/-- _get_from_db for the SELECT built by load_tiles.  The sqlite collaborator
is modelled semantically; on a connection/query failure the exception is
caught and the function returns None (the Python except branch). -/
def evalTilesQuery (db : TileDB) (zoom : Option ℤ) (bounds : Option Bounds)
    (maxTiles : Option ℕ) : Option (List TileRow) :=
  if db.fail then none
  else some (applyLimit maxTiles (db.tiles.filter (rowMatches zoom bounds)))

/-- is_tile_loaded: membership test of the loaded-tiles list. -/
def is_tile_loaded (loaded : List Key) (k : Key) : Bool :=
  decide (k ∈ loaded)

/-- _create_tile: the VectorTile is built from the row columns and the
scheme of the source. -/
def create_tile (scheme : String) (r : TileRow) : VectorTile × ℕ :=
  (⟨scheme, r.zoom_level, r.tile_column, r.tile_row⟩, r.tile_data)

/-- The row loop of MBTilesSource.load_tiles.  Per row: the per-item callback
runs, then the cancel flag is read (break when set), then the tile is
deduplicated against the loaded list keyed by the zoom_level argument, and
progress index+1 is reported. -/
def loadLoop (scheme : String) (zoom : Option ℤ) (forEach : Bool) :
    List TileRow → ℕ → Option ℕ → List Key →
    List (VectorTile × ℕ) × List Key × List Event
  | [], _, _, loaded => ([], loaded, [])
  | r :: rs, index, cancelAt, loaded =>
    let evFE : List Event := if forEach then [Event.forEach] else []
    if cancelAt = some 0 then ([], loaded, evFE)
    else
      let td := create_tile scheme r
      let key : Key := (zoom, td.1.column, td.1.row)
      if is_tile_loaded loaded key then
        let rest := loadLoop scheme zoom forEach rs (index + 1) (decCancel cancelAt) loaded
        (rest.1, rest.2.1, evFE ++ Event.progress (index + 1) :: rest.2.2)
      else
        let rest := loadLoop scheme zoom forEach rs (index + 1) (decCancel cancelAt)
          (loaded ++ [key])
        (td :: rest.1, rest.2.1, evFE ++ Event.progress (index + 1) :: rest.2.2)

/-- MBTilesSource.load_tiles.  Returns the delivered (tile, payload) pairs,
the new loaded-tiles list, and the progress events.  A failed query yields
None rows, and an empty or None row list short-circuits (if rows:). -/
def load_tiles (scheme : String) (db : TileDB) (zoom : Option ℤ)
    (bounds : Option Bounds) (maxTiles : Option ℕ) (forEach : Bool)
    (cancelAt : Option ℕ) (loaded : List Key) :
    List (VectorTile × ℕ) × List Key × List Event :=
  match evalTilesQuery db zoom bounds maxTiles with
  | none => ([], loaded, [])
  | some rows =>
    if rows.isEmpty then ([], loaded, [])
    else
      let out := loadLoop scheme zoom forEach rows 0 cancelAt loaded
      (out.1, out.2.1, Event.maxProgress rows.length :: out.2.2)

/-- The loaded key recorded for a delivered tile: the zoom_level argument
with the column and row of the tile. -/
def keyOf (zoom : Option ℤ) (t : VectorTile) : Key := (zoom, t.column, t.row)

/-- The loaded keys of a delivered result list. -/
def kmap (zoom : Option ℤ) (res : List (VectorTile × ℕ)) : List Key :=
  res.map fun td => keyOf zoom td.1

end MBTilesSource

/-- A value read from the database by _get_single_value: metadata values are
text, the zoom fallback reads an integer column, and _get_zoom stores the
int() of the value back into the cache. -/
inductive SqlVal where
  | s (v : String)
  | i (v : ℤ)
deriving DecidableEq

/-- Python exceptions that the embedded code can raise. -/
inductive PyErr where
  | valueError
  | typeError
  | keyError
  | indexError
  | assertionError
deriving DecidableEq

/-- The metadata query string built by _get_metadata_value:
select value as (field) from metadata where name = (field), with the field
name single-quoted. -/
def metadata_query (field : String) : String :=
  "select value as \x27" ++ field ++ "\x27 from metadata where name = \x27" ++ field ++ "\x27"

/-- The query string built by _get_zoom_from_tiles_table: the Python source
concatenates the four fragments without separating spaces, which is kept
verbatim here. -/
def zoom_table_query (ord : String) : String :=
  "select zoom_level as \x27zoom_level\x27" ++ "from tiles" ++ "order by zoom_level " ++ ord
    ++ "limit 1"

def maxZ : List ℤ → Option ℤ
  | [] => none
  | z :: zs => some (zs.foldl max z)

def minZ : List ℤ → Option ℤ
  | [] => none
  | z :: zs => some (zs.foldl min z)

/-- Model of the sqlite collaborator for the single-value queries issued by
_get_single_value: it executes exactly the well-formed queries over the
metadata and tiles tables and raises on any other string (in particular on
the fragment-concatenated zoom query, whose token tilesorder names no table);
the caller catches the exception and gets None.  A db with the failure flag
set raises on every query. -/
def run_single_query (db : TileDB) (sql : String) (field : String) : Option SqlVal :=
  if db.fail then none
  else if sql = metadata_query field then
    (db.metadata.lookup field).map SqlVal.s
  else if sql = "select zoom_level as \x27zoom_level\x27 from tiles order by zoom_level desc limit 1"
      ∧ field = "zoom_level" then
    (maxZ (db.tiles.map TileRow.zoom_level)).map SqlVal.i
  else if sql = "select zoom_level as \x27zoom_level\x27 from tiles order by zoom_level asc limit 1"
      ∧ field = "zoom_level" then
    (minZ (db.tiles.map TileRow.zoom_level)).map SqlVal.i
  else none

namespace MBTilesSource

/-- The _metadata_cache dictionary: field name to the cached value, where a
cached None is represented by a stored none. -/
abbrev MetaCache := List (String × Option SqlVal)

/-- Dictionary assignment cache[field] = v. -/
def cacheSet (c : MetaCache) (field : String) (v : Option SqlVal) : MetaCache :=
  if c.any (fun kv => kv.1 == field) then
    c.map (fun kv => if kv.1 == field then (field, v) else kv)
  else c ++ [(field, v)]

/-- Python truthiness of an optional string argument. -/
def optStrTruthy : Option String → Bool
  | none => false
  | some s => s != ""

/-- Python truthiness of a value loaded from the db. -/
def sqlValTruthy : Option SqlVal → Bool
  | none => false
  | some (SqlVal.s v) => v != ""
  | some (SqlVal.i v) => v != 0

/-- _get_metadata_value: cached lookup of one metadata key, with an optional
default used when the loaded value is falsy. -/
def get_metadata_value (db : TileDB) (cache : MetaCache) (field : String)
    (dflt : Option String) : Option SqlVal × MetaCache :=
  match cache.lookup field with
  | some v => (v, cache)
  | none =>
    let value0 := run_single_query db (metadata_query field) field
    let value := if optStrTruthy dflt && !sqlValTruthy value0 then dflt.map SqlVal.s
      else value0
    (value, cache ++ [(field, value)])

/-- _get_zoom_from_tiles_table: runs the fragment-concatenated query. -/
def get_zoom_from_tiles_table (db : TileDB) (maxZoom : Bool) : Option SqlVal :=
  let ord := if maxZoom then "desc" else "asc"
  run_single_query db (zoom_table_query ord) "zoom_level"

/-- Python int() applied to a db value: identity on integers, parse on
strings, ValueError on anything unparsable. -/
def pyIntOf : SqlVal → Except PyErr ℤ
  | SqlVal.i z => Except.ok z
  | SqlVal.s v =>
    match v.toInt? with
    | some z => Except.ok z
    | none => Except.error PyErr.valueError

/-- _get_zoom: metadata key maxzoom/minzoom, falling back to the tiles table
when the metadata value is None, converted by int(), cached under the field
name; a cached field is returned as stored. -/
def get_zoom (db : TileDB) (cache : MetaCache) (maxZoom : Bool) :
    Except PyErr (Option SqlVal × MetaCache) :=
  let field := if maxZoom then "maxzoom" else "minzoom"
  match cache.lookup field with
  | some v => Except.ok (v, cache)
  | none =>
    let m := get_metadata_value db cache field none
    let z1 := match m.1 with
      | none => get_zoom_from_tiles_table db maxZoom
      | some v => some v
    match z1 with
    | none => Except.ok (none, cacheSet m.2 field none)
    | some v =>
      match pyIntOf v with
      | Except.error e => Except.error e
      | Except.ok z => Except.ok (some (SqlVal.i z), cacheSet m.2 field (some (SqlVal.i z)))

/-- min_zoom(). -/
def min_zoom (db : TileDB) (cache : MetaCache) : Except PyErr (Option SqlVal × MetaCache) :=
  get_zoom db cache false

/-- max_zoom(). -/
def max_zoom (db : TileDB) (cache : MetaCache) : Except PyErr (Option SqlVal × MetaCache) :=
  get_zoom db cache true

end MBTilesSource

namespace ServerSource

/-- A key of the loaded-tiles list of a ServerSource: (zoom, col, row) with
the zoom_level argument of load_tiles. -/
abbrev Key := ℤ × ℤ × ℤ

/-- An entry of the urls list: (load_url, col, row). -/
abbrev UrlEntry := String × ℤ × ℤ

/-- An entry of the results queue: (content, col, row). -/
abbrev QueueEntry := ℕ × ℤ × ℤ

/-- Modelled from the spec: tile_helper.get_all_tiles (the tile_helper module
is not under src/) enumerates the candidate tile coordinates of the requested
bounds, a rectangle of columns and rows; the enumeration order is not fixed
by the spec and is taken column-major here. -/
def get_all_tiles (b : Bounds) : List (ℤ × ℤ) :=
  (List.range (b.2.1 - b.1.1 + 1).toNat ×ˢ List.range (b.2.2 - b.1.2 + 1).toNat).map
    fun p => (b.1.1 + p.1, b.1.2 + p.2)

/-- The url template substitution in load_tiles. -/
def build_url (template : String) (zoom col row : ℤ) : String :=
  ((template.replace "{z}" (toString zoom)).replace "{x}" (toString col)).replace "{y}"
    (toString row)

/-- is_tile_loaded. -/
def is_tile_loaded (loaded : List Key) (k : Key) : Bool :=
  decide (k ∈ loaded)

/-- The break condition of the url-collection loop:
if max_tiles and index+1 == max_tiles, with Python truthiness of max_tiles. -/
def breakAtMax (maxTiles : Option ℕ) (index : ℕ) : Bool :=
  match maxTiles with
  | none => false
  | some m => m != 0 && index + 1 == m

/-- The url-collection loop of ServerSource.load_tiles: enumerate the
candidate tiles; an already-loaded tile is skipped with continue, which also
skips the break check of that iteration; otherwise the url is appended and
the loop breaks when index+1 equals max_tiles. -/
def collectUrls (template : String) (zoom : ℤ) (maxTiles : Option ℕ)
    (loaded : List Key) : List (ℤ × ℤ) → ℕ → List UrlEntry
  | [], _ => []
  | t :: ts, index =>
    if is_tile_loaded loaded (zoom, t.1, t.2) then
      collectUrls template zoom maxTiles loaded ts (index + 1)
    else
      let u : UrlEntry := (build_url template zoom t.1 t.2, t.1, t.2)
      if breakAtMax maxTiles index then [u]
      else u :: collectUrls template zoom maxTiles loaded ts (index + 1)

/-- The fetch threads of one page.  FileHelper.load_url is modelled from the
spec (fetch(url) gives bytes or signals NetworkError, in which case the tile
is simply absent): every thread of the page is started before any join, so
each successful fetch enqueues its result regardless of cancellation; the
queue order within a page is not deterministic in the source and is modelled
as launch order. -/
def pageResults (fetch : String → Option ℕ) (items : List UrlEntry) : List QueueEntry :=
  items.filterMap fun u => (fetch u.1).map fun content => (content, u.2.1, u.2.2)

/-- The join loop of _load_urls_async: per started thread, the per-item
callback runs, then the cancel flag is read (break when set), then the thread
is joined and progress page_offset+index+1 is reported.  Returns the events
and the remaining cancel schedule. -/
def load_urls_async (forEach : Bool) (pageOffset : ℕ) :
    List UrlEntry → ℕ → Option ℕ → List Event × Option ℕ
  | [], _, cAt => ([], cAt)
  | _ :: us, index, cAt =>
    let evFE : List Event := if forEach then [Event.forEach] else []
    if cAt = some 0 then (evFE, cAt)
    else
      let rest := load_urls_async forEach pageOffset us (index + 1) (decCancel cAt)
      (evFE ++ Event.progress (pageOffset + index + 1) :: rest.1, rest.2)

/-- The while loop of _do_paged.  page_nr starts at 0 and advances by
page_size, the slice all_items[page_nr : page_nr+page_size] is processed, and
the page offset handed to _load_urls_async is page_nr*page_size as in the
source.  The loop stops when the cancel flag is set or the slice is empty.
The fuel argument bounds the number of iterations; every iteration either
stops or consumes at least one url, so length+1 iterations always suffice and
the fuel-exhausted base case is unreachable from the wrapper below. -/
def do_paged_go (fetch : String → Option ℕ) (forEach : Bool) (pageSize : ℕ) :
    ℕ → List UrlEntry → ℕ → Option ℕ → List QueueEntry × List Event
  | 0, _, _, _ => ([], [])
  | fuel + 1, remaining, pageNr, cAt =>
    let items := remaining.take pageSize
    if cAt = some 0 ∨ items = [] then ([], [])
    else
      let inner := load_urls_async forEach (pageNr * pageSize) items 0 (decCancel cAt)
      let rest := do_paged_go fetch forEach pageSize fuel (remaining.drop pageSize)
        (pageNr + pageSize) inner.2
      (pageResults fetch items ++ rest.1, inner.1 ++ rest.2)

/-- _do_paged(page_size, all_items, _load_urls_async, queue, for_each). -/
def do_paged (fetch : String → Option ℕ) (forEach : Bool) (pageSize : ℕ)
    (allItems : List UrlEntry) (cAt : Option ℕ) : List QueueEntry × List Event :=
  do_paged_go fetch forEach pageSize (allItems.length + 1) allItems 0 cAt

/-- ServerSource.load_tiles: enumerate candidates, collect urls with dedup
and the max_tiles break, announce the bounded task, fetch in pages of 5,
then drain the queue building (VectorTile, payload) pairs and marking each
drained tile loaded. -/
def load_tiles (template scheme : String) (fetch : String → Option ℕ) (zoom : ℤ)
    (bounds : Bounds) (maxTiles : Option ℕ) (forEach : Bool) (cancelAt : Option ℕ)
    (loaded : List Key) : List (VectorTile × ℕ) × List Key × List Event :=
  let tilesToLoad := get_all_tiles bounds
  let urls := collectUrls template zoom maxTiles loaded tilesToLoad 0
  let paged := do_paged fetch forEach 5 urls cancelAt
  let res := paged.1.map fun q => ((⟨scheme, zoom, q.2.1, q.2.2⟩ : VectorTile), q.1)
  (res, loaded ++ paged.1.map (fun q => (zoom, q.2.1, q.2.2)),
    Event.maxProgress urls.length :: paged.2)

/-- The loaded key recorded for a delivered tile of the remote source. -/
def skeyOf (zoom : ℤ) (t : VectorTile) : Key := (zoom, t.column, t.row)

/-- The loaded keys of a delivered result list. -/
def skmap (zoom : ℤ) (res : List (VectorTile × ℕ)) : List Key :=
  res.map fun td => skeyOf zoom td.1

/-- The (column, row) pair of a url entry. -/
def crsOfU (u : UrlEntry) : ℤ × ℤ := (u.2.1, u.2.2)

/-- The (column, row) pair of a queue entry. -/
def crsOfQ (q : QueueEntry) : ℤ × ℤ := (q.2.1, q.2.2)

end ServerSource

namespace VtReader

/-- VectorTileHelper.VectorTile as used by vt_reader.py:
VectorTile(zoom_level, tile_col, tile_row). -/
structure Tile where
  zoom_level : ℤ
  column : ℤ
  row : ℤ
deriving DecidableEq

/-- The class constant _extent = 4096. -/
def extent : ℚ := 4096

/-- Half the mercator world width in meters, 2 * pi * 6378137 / 2, as the
binary double used by GlobalMapTiles. -/
def originShift : ℚ := 20037508342789244 / 1000000000

/-- Modelled from the spec: GlobalMercator().TileBounds (GlobalMapTiles is
not under src/) computes the world-mercator bounding box of a tile by the
standard spherical-mercator formula: the tile size in meters halves per zoom
level starting from the fixed world extent.  Returns (minx, miny, maxx,
maxy).  Arithmetic is exact rational arithmetic. -/
def TileBounds (tx ty zoom : ℤ) : ℚ × ℚ × ℚ × ℚ :=
  let size : ℚ := 2 * originShift / 2 ^ zoom
  (-originShift + tx * size, -originShift + ty * size,
   -originShift + (tx + 1) * size, -originShift + (ty + 1) * size)

/-- Python int() on a float: truncation toward zero. -/
def pyInt (q : ℚ) : ℤ :=
  if 0 ≤ q then ⌊q⌋ else -⌊-q⌋

/-- _calculate_geometry: the mercator transformation of one local coordinate
pair, truncated to integer meters. -/
def calculate_geometry (tile : Tile) (x y : ℤ) : ℤ × ℤ :=
  let tmp := TileBounds tile.column tile.row tile.zoom_level
  let deltaX := tmp.2.2.1 - tmp.1
  let deltaY := tmp.2.2.2 - tmp.2.1
  (pyInt (tmp.1 + deltaX / extent * x), pyInt (tmp.2.1 + deltaY / extent * y))

/-- A node of the decoded geometry coordinate tree: a coordinate tuple (a
two-element list of ints in the decoded data) or a nested list. -/
inductive Coord where
  | pair (x y : ℤ)
  | node (items : List Coord)

/-- map_coordinates_recursive: depth-first traversal applying the function to
every coordinate tuple and preserving the nesting structure. -/
def map_coordinates_recursive (f : ℤ → ℤ → ℤ × ℤ) : List Coord → List Coord
  | [] => []
  | Coord.pair x y :: cs =>
    Coord.pair (f x y).1 (f x y).2 :: map_coordinates_recursive f cs
  | Coord.node items :: cs =>
    Coord.node (map_coordinates_recursive f items) :: map_coordinates_recursive f cs

/-- One decoded feature: the protobuf type tag, the geometry coordinate list
and the properties map (property values modelled as strings). -/
structure RawFeature where
  type : ℕ
  geometry : List Coord
  properties : List (String × String)

/-- The decoded payload of one tile: layer name to the features of that
layer. -/
abbrev DecodedData := List (String × List RawFeature)

/-- A raw tile payload as seen by the decode step. -/
inductive Payload where
  | ok (d : DecodedData)
  | badCompression
  | badProtobuf

/-- decode_binary_tile_data: both a zlib failure and a protobuf failure are
caught by the same except branch, which returns None. -/
def decode_binary_tile_data : Payload → Option DecodedData
  | Payload.ok d => some d
  | Payload.badCompression => none
  | Payload.badProtobuf => none

/-- decode_all_tiles: every tile is decoded and kept, a failed decode leaves
decoded_data = None on the tile. -/
def decode_all_tiles (l : List (Tile × Payload)) : List (Tile × Option DecodedData) :=
  l.map fun td => (td.1, decode_binary_tile_data td.2)

/-- The geo_types class dictionary; a lookup of any other tag raises
KeyError. -/
def geo_types : ℕ → Option String
  | 1 => some "Point"
  | 2 => some "LineString"
  | 3 => some "Polygon"
  | _ => none

/-- A geojson geometry object. -/
inductive Geometry where
  | point (c : Coord)
  | lineString (cs : List Coord)
  | polygon (cs : List Coord)

/-- A geojson Feature: geometry plus the properties of the source feature. -/
structure GeoFeature where
  geometry : Geometry
  properties : List (String × String)

/-- create_geojson_feature: look up the geometry type (KeyError on an unknown
tag), reproject the coordinate tree, and for a Point unwrap one nesting level
(coordinates[0], IndexError on an empty list). -/
def create_geojson_feature (f : RawFeature) (tile : Tile) :
    Except PyErr (GeoFeature × String) :=
  match geo_types f.type with
  | none => Except.error PyErr.keyError
  | some geoType =>
    let coordinates :=
      map_coordinates_recursive (fun x y => calculate_geometry tile x y) f.geometry
    if geoType = "Point" then
      match coordinates with
      | [] => Except.error PyErr.indexError
      | c :: _ => Except.ok (⟨Geometry.point c, f.properties⟩, geoType)
    else if geoType = "Polygon" then
      Except.ok (⟨Geometry.polygon coordinates, f.properties⟩, geoType)
    else
      Except.ok (⟨Geometry.lineString coordinates, f.properties⟩, geoType)

/-- The all_features store: feature path to the features of that
collection. -/
abbrev Store := List (String × List GeoFeature)

/-- Lazily create the collection of a path, then append. -/
def storeAppend (store : Store) (path : String) (f : GeoFeature) : Store :=
  if store.any (fun kv => kv.1 == path) then
    store.map fun kv => if kv.1 == path then (kv.1, kv.2 ++ [f]) else kv
  else store ++ [(path, [f])]

/-- Python truthiness of an optional property value. -/
def optTruthy : Option String → Bool
  | none => false
  | some s => s != ""

/-- The class/subclass logic of write_features: feature_class is read when
the class key is present, feature_subclass is read only inside that branch;
the assert fires when feature_subclass is truthy and feature_class is falsy;
the path appends class and then subclass under their truthiness. -/
def feature_path_of (layerName : String) (props : List (String × String)) :
    Except PyErr String :=
  let featureClass : Option String := props.lookup "class"
  let featureSubclass : Option String :=
    match props.lookup "class" with
    | some _ => props.lookup "subclass"
    | none => none
  if optTruthy featureSubclass && !optTruthy featureClass then
    Except.error PyErr.assertionError
  else
    let p1 := if optTruthy featureClass then layerName ++ "." ++ featureClass.getD ""
      else layerName
    let p2 := if optTruthy featureClass && optTruthy featureSubclass then
        p1 ++ "." ++ featureSubclass.getD ""
      else p1
    Except.ok p2

/-- The per-feature body of write_features: build the geojson feature (any
exception propagates), derive the feature path, append to the store. -/
def writeOneFeature (tile : Tile) (layerName : String) (store : Store)
    (f : RawFeature) : Except PyErr Store :=
  match create_geojson_feature f tile with
  | Except.error e => Except.error e
  | Except.ok d =>
    match feature_path_of layerName f.properties with
    | Except.error e => Except.error e
    | Except.ok path => Except.ok (storeAppend store path d.1)

/-- The feature loop of write_features over one layer. -/
def writeFeatureList (tile : Tile) (layerName : String) :
    Store → List RawFeature → Except PyErr Store
  | store, [] => Except.ok store
  | store, f :: fs =>
    match writeOneFeature tile layerName store f with
    | Except.error e => Except.error e
    | Except.ok store2 => writeFeatureList tile layerName store2 fs

/-- The layer loop of write_features. -/
def writeLayers (tile : Tile) : Store → DecodedData → Except PyErr Store
  | store, [] => Except.ok store
  | store, (layerName, fs) :: rest =>
    match writeFeatureList tile layerName store fs with
    | Except.error e => Except.error e
    | Except.ok store2 => writeLayers tile store2 rest

/-- write_features(tile): iterating over tile.decoded_data raises TypeError
when the decode step left it None. -/
def write_features (tile : Tile) (decoded : Option DecodedData) (store : Store) :
    Except PyErr Store :=
  match decoded with
  | none => Except.error PyErr.typeError
  | some layers => writeLayers tile store layers

/-- process_tiles: write every tile in order; an exception aborts the run,
carrying the store accumulated so far. -/
def process_tiles : List (Tile × Option DecodedData) → Store →
    Except (PyErr × Store) Store
  | [], store => Except.ok store
  | t :: ts, store =>
    match write_features t.1 t.2 store with
    | Except.error e => Except.error (e, store)
    | Except.ok store2 => process_tiles ts store2

end VtReader

/-! Helper lemmas for the reprojection corner computations. -/

namespace VtReader

theorem floor_originShift : ⌊originShift⌋ = 20037508 := by
  rw [Int.floor_eq_iff]
  constructor <;> norm_num [originShift]

theorem pyInt_originShift : pyInt originShift = 20037508 := by
  rw [pyInt, if_pos (by norm_num [originShift])]
  exact floor_originShift

theorem pyInt_neg_originShift : pyInt (-originShift) = -20037508 := by
  rw [pyInt, if_neg (by norm_num [originShift])]
  rw [neg_neg, floor_originShift]

theorem tileBounds_zero :
    TileBounds 0 0 0 = (-originShift, -originShift, originShift, originShift) := by
  simp only [TileBounds]
  norm_num
  ring

theorem sum_div_extent :
    -originShift + (originShift + originShift) / extent * 4096 = originShift := by
  rw [extent]
  field_simp

theorem corner_ll :
    calculate_geometry ⟨0, 0, 0⟩ 0 0 = (pyInt (-originShift), pyInt (-originShift)) := by
  simp only [calculate_geometry, tileBounds_zero]
  norm_num

theorem corner_hl :
    calculate_geometry ⟨0, 0, 0⟩ 4096 0 = (pyInt originShift, pyInt (-originShift)) := by
  simp only [calculate_geometry, tileBounds_zero]
  norm_num [sum_div_extent]

theorem corner_lh :
    calculate_geometry ⟨0, 0, 0⟩ 0 4096 = (pyInt (-originShift), pyInt originShift) := by
  simp only [calculate_geometry, tileBounds_zero]
  norm_num [sum_div_extent]

theorem corner_hh :
    calculate_geometry ⟨0, 0, 0⟩ 4096 4096 = (pyInt originShift, pyInt originShift) := by
  simp only [calculate_geometry, tileBounds_zero]
  norm_num [sum_div_extent]

theorem corner_ll_val : calculate_geometry ⟨0, 0, 0⟩ 0 0 = (-20037508, -20037508) := by
  rw [corner_ll, pyInt_neg_originShift]

end VtReader

/-- C5: for tile (zoom=0, column=0, row=0) and local extent 4096, the formula
worldX = minX + (maxX-minX)/E * lx and worldY = minY + (maxY-minY)/E * ly,
truncated to integer meters, maps the four corners (0,0), (E,0), (0,E), (E,E)
of the local extent exactly onto the four corners of the world mercator
extent (-originShift, -originShift, originShift, originShift), in consistent
order; the truncated corner values are the integers -20037508 and
20037508. -/
theorem C5_reprojection_corners :
    VtReader.TileBounds 0 0 0 =
      (-VtReader.originShift, -VtReader.originShift, VtReader.originShift,
        VtReader.originShift) ∧
    VtReader.calculate_geometry ⟨0, 0, 0⟩ 0 0 =
      (VtReader.pyInt (-VtReader.originShift), VtReader.pyInt (-VtReader.originShift)) ∧
    VtReader.calculate_geometry ⟨0, 0, 0⟩ 4096 0 =
      (VtReader.pyInt VtReader.originShift, VtReader.pyInt (-VtReader.originShift)) ∧
    VtReader.calculate_geometry ⟨0, 0, 0⟩ 0 4096 =
      (VtReader.pyInt (-VtReader.originShift), VtReader.pyInt VtReader.originShift) ∧
    VtReader.calculate_geometry ⟨0, 0, 0⟩ 4096 4096 =
      (VtReader.pyInt VtReader.originShift, VtReader.pyInt VtReader.originShift) ∧
    VtReader.pyInt (-VtReader.originShift) = -20037508 ∧
    VtReader.pyInt VtReader.originShift = 20037508 :=
  ⟨VtReader.tileBounds_zero, VtReader.corner_ll, VtReader.corner_hl, VtReader.corner_lh,
    VtReader.corner_hh, VtReader.pyInt_neg_originShift, VtReader.pyInt_originShift⟩

/-- C8: for every archive-source load_tiles call in which the underlying
query or connection fails (the failure flag of the db model), the exception
is caught inside _get_from_db and the call returns an empty result, leaves
the loaded-tile list unchanged and reports no progress. -/
theorem C8_query_failure_empty_result (scheme : String) (tiles : List TileRow)
    (metadata : List (String × String)) (zoom : Option ℤ) (bounds : Option Bounds)
    (maxTiles : Option ℕ) (forEach : Bool) (cancelAt : Option ℕ)
    (loaded : List MBTilesSource.Key) :
    MBTilesSource.load_tiles scheme ⟨tiles, metadata, true⟩ zoom bounds maxTiles forEach
      cancelAt loaded = ([], loaded, []) := by
  simp [MBTilesSource.load_tiles, MBTilesSource.evalTilesQuery]

/-- C10: the duplicate-suppression key of the archive source is built from
the zoom_level argument of load_tiles, not from the zoom_level of the
returned row: with zoom_level=None and two rows sharing tile_column and
tile_row but differing in zoom_level, only the first row is returned and the
second is suppressed as a duplicate, the single loaded key carrying the None
zoom argument. -/
theorem C10_dedup_key_uses_argument_zoom (scheme : String) (z1 z2 c r : ℤ)
    (d1 d2 : ℕ) (h : z1 ≠ z2) :
    MBTilesSource.load_tiles scheme ⟨[⟨z1, c, r, d1⟩, ⟨z2, c, r, d2⟩], [], false⟩ none none
      none false none []
      = ([(⟨scheme, z1, c, r⟩, d1)], [(none, c, r)],
         [Event.maxProgress 2, Event.progress 1, Event.progress 2]) := by
  simp [MBTilesSource.load_tiles, MBTilesSource.evalTilesQuery, MBTilesSource.rowMatches,
    MBTilesSource.applyLimit, MBTilesSource.loadLoop, MBTilesSource.is_tile_loaded,
    MBTilesSource.create_tile, decCancel]

/-- Witness for C10 at a concrete input. -/
theorem C10_dedup_key_uses_argument_zoom_witness :
    (3 : ℤ) ≠ 4 ∧
    MBTilesSource.load_tiles "tms" ⟨[⟨3, 0, 0, 1⟩, ⟨4, 0, 0, 2⟩], [], false⟩ none none
      none false none []
      = ([(⟨"tms", 3, 0, 0⟩, 1)], [(none, 0, 0)],
         [Event.maxProgress 2, Event.progress 1, Event.progress 2]) :=
  ⟨by decide, C10_dedup_key_uses_argument_zoom "tms" 3 4 0 0 1 2 (by decide)⟩

/-- C1 counterexample: the same tile coordinate (zoom 5, col 0, row 0) is
delivered by both of two load_tiles calls of one MBTilesSource instance with
the same bounds, because the first call (zoom_level=None, the probe
configuration used by is_mapbox_vector_tile) records the loaded key under the
None zoom argument while the second call (zoom_level=5) checks the key under
5; the claim that a tile is returned at most once across the two calls is
therefore false. -/
theorem C1_counterexample :
    (((MBTilesSource.load_tiles "tms" ⟨[⟨5, 0, 0, 77⟩], [], false⟩ none
          (some ((0, 0), (0, 0))) (some 1) false none []).1 ++
        (MBTilesSource.load_tiles "tms" ⟨[⟨5, 0, 0, 77⟩], [], false⟩ (some 5)
          (some ((0, 0), (0, 0))) none false none
          (MBTilesSource.load_tiles "tms" ⟨[⟨5, 0, 0, 77⟩], [], false⟩ none
            (some ((0, 0), (0, 0))) (some 1) false none []).2.1).1).map
        Prod.fst).count ⟨"tms", 5, 0, 0⟩ = 2 := by
  decide

/-- C2: evaluation showing the max_tiles cap violated by the remote source.
With candidates (0,0), (1,0), (2,0), tile (0,0) already delivered by an
earlier call, and max_tiles=1, the continue for the loaded tile skips the
break check of that iteration and index never again equals max_tiles-1, so
the second call fetches and returns 2 tiles. -/
theorem C2_remote_cap_exceeded :
    ((ServerSource.load_tiles "http://t/{z}/{x}/{y}" "xyz" (fun _ => some 7) 5
        ((0, 0), (2, 0)) (some 1) false none []).1.length = 1) ∧
    ((ServerSource.load_tiles "http://t/{z}/{x}/{y}" "xyz" (fun _ => some 7) 5
        ((0, 0), (2, 0)) (some 1) false none
        (ServerSource.load_tiles "http://t/{z}/{x}/{y}" "xyz" (fun _ => some 7) 5
          ((0, 0), (2, 0)) (some 1) false none []).2.1).1.length = 2) := by
  constructor <;> decide

/-- C9: evaluation showing the progress numbering of the remote source wrong
from the second page on.  With 6 urls and page size 5, the progress events
are 1..5 for the first page and then 26 for the sixth completed fetch,
because _do_paged computes the page offset as page_nr*page_size although
page_nr already is an item index; the claim that the k-th completed fetch is
reported with progress k fails at k = 6 (the report even exceeds the
announced max_progress of 6). -/
theorem C9_progress_offset_wrong :
    (ServerSource.load_tiles "http://t/{z}/{x}/{y}" "xyz" (fun _ => some 9) 1
        ((0, 0), (5, 0)) none false none []).2.2
      = [Event.maxProgress 6, Event.progress 1, Event.progress 2, Event.progress 3,
         Event.progress 4, Event.progress 5, Event.progress 26] := by
  decide

/-- C3 counterexample: with a single-row archive and the cancel flag set
after the first row is processed, the cancelled call returns exactly the
sequence of the uncancelled call, so the returned sequence is not a strict
prefix of it; strictness fails when nothing deliverable remains after the
cancellation point. -/
theorem C3_counterexample :
    ¬ ((MBTilesSource.load_tiles "tms" ⟨[⟨7, 0, 0, 9⟩], [], false⟩ (some 7) none none false
          (some 1) []).1 <+:
        (MBTilesSource.load_tiles "tms" ⟨[⟨7, 0, 0, 9⟩], [], false⟩ (some 7) none none false
          none []).1 ∧
       (MBTilesSource.load_tiles "tms" ⟨[⟨7, 0, 0, 9⟩], [], false⟩ (some 7) none none false
          (some 1) []).1 ≠
        (MBTilesSource.load_tiles "tms" ⟨[⟨7, 0, 0, 9⟩], [], false⟩ (some 7) none none false
          none []).1) := by
  intro h
  exact h.2 (by decide)

/-- C6: evaluation of a run with a first tile whose payload is valid deflate
but not valid protobuf and a second, well-formed tile.  decode_all_tiles
decodes both (the first to None), but process_tiles then raises TypeError
iterating over the None decoded data of the first tile, so the run aborts
with an empty store and the second tile is never aggregated — contradicting
the claim that every other tile of the run is still aggregated and present in
the output. -/
theorem C6_decode_failure_aborts_run :
    VtReader.process_tiles
        (VtReader.decode_all_tiles
          [(⟨14, 0, 0⟩, VtReader.Payload.badProtobuf),
           (⟨0, 0, 0⟩, VtReader.Payload.ok
              [("landcover", [⟨1, [VtReader.Coord.pair 0 0], [("class", "wood")]⟩])])]) []
      = Except.error (PyErr.typeError, []) := rfl

/-- C7: evaluation of min_zoom on an archive whose metadata has no minzoom
key and whose tiles table holds zoom levels 3 and 7.  The fallback query
string is concatenated without separating spaces, so its execution fails and
min_zoom returns None (cached) instead of the table minimum 3; the correctly
spaced query would return 3 from the same database. -/
theorem C7_zoom_fallback_query_malformed :
    MBTilesSource.min_zoom ⟨[⟨3, 0, 0, 1⟩, ⟨7, 0, 0, 2⟩], [], false⟩ []
        = Except.ok (none, [("minzoom", none)]) ∧
    minZ ((⟨[⟨3, 0, 0, 1⟩, ⟨7, 0, 0, 2⟩], [], false⟩ : TileDB).tiles.map TileRow.zoom_level)
        = some 3 ∧
    run_single_query ⟨[⟨3, 0, 0, 1⟩, ⟨7, 0, 0, 2⟩], [], false⟩
        "select zoom_level as \x27zoom_level\x27 from tiles order by zoom_level asc limit 1"
        "zoom_level" = some (SqlVal.i 3) ∧
    zoom_table_query "asc"
        = "select zoom_level as \x27zoom_level\x27from tilesorder by zoom_level asclimit 1" := by
  exact ⟨rfl, by decide, by decide, by decide⟩

/-- C4: evaluation of write_features on a feature whose properties contain
the key subclass but not the key class.  Because the subclass value is only
read inside the class-key branch, the orphan-subclass assertion cannot fire:
no error is signalled and the feature is appended to the collection of the
bare layer path, contradicting the claim that the error is signalled and the
feature is appended to no collection. -/
theorem C4_orphan_subclass_not_detected :
    VtReader.write_features ⟨0, 0, 0⟩
        (some [("landcover", [⟨1, [VtReader.Coord.pair 0 0], [("subclass", "forest")]⟩])]) []
      = Except.ok
          [("landcover",
            [⟨VtReader.Geometry.point (VtReader.Coord.pair (-20037508) (-20037508)),
              [("subclass", "forest")]⟩])] := by
  simp only [VtReader.write_features, VtReader.writeLayers, VtReader.writeFeatureList,
    VtReader.writeOneFeature, VtReader.create_geojson_feature, VtReader.geo_types,
    VtReader.map_coordinates_recursive, VtReader.corner_ll_val, VtReader.feature_path_of,
    VtReader.optTruthy, VtReader.storeAppend, List.lookup]
  simp

/-! Helper lemmas for the dedup and cancellation theorems. -/

theorem count_le_one_of_map_nodup {α β : Type} [DecidableEq α] (f : α → β) :
    ∀ (l : List α), (l.map f).Nodup → ∀ a, l.count a ≤ 1 := by
  intro l
  induction l with
  | nil => simp
  | cons b l ih =>
    intro h a
    simp only [List.map_cons, List.nodup_cons] at h
    obtain ⟨hnb, hnd⟩ := h
    by_cases hb : b = a
    · subst hb
      have hbl : b ∉ l := fun hmem => hnb (List.mem_map_of_mem f hmem)
      rw [List.count_cons_self]
      have hz : l.count b = 0 := List.count_eq_zero.2 hbl
      omega
    · rw [List.count_cons_of_ne (fun hh => hb hh.symm)]
      exact ih hnd a

theorem isPrefix_append_left {α : Type} (c : List α) {a b : List α} (h : a <+: b) :
    c ++ a <+: c ++ b := by
  obtain ⟨t, ht⟩ := h
  exact ⟨t, by rw [List.append_assoc, ht]⟩

namespace MBTilesSource

/-- The invariant of the row loop: the loaded list grows by exactly the keys
of the delivered tiles, every delivered key is fresh with respect to the
loaded list at entry, and the delivered keys are pairwise distinct. -/
theorem loadLoop_spec (scheme : String) (zoom : Option ℤ) (fe : Bool) :
    ∀ (rows : List TileRow) (idx : ℕ) (cAt : Option ℕ) (loaded : List Key),
      (loadLoop scheme zoom fe rows idx cAt loaded).2.1
          = loaded ++ kmap zoom (loadLoop scheme zoom fe rows idx cAt loaded).1
        ∧ (∀ k ∈ kmap zoom (loadLoop scheme zoom fe rows idx cAt loaded).1, k ∉ loaded)
        ∧ (kmap zoom (loadLoop scheme zoom fe rows idx cAt loaded).1).Nodup := by
  intro rows
  induction rows with
  | nil => intro idx cAt loaded; simp [loadLoop, kmap]
  | cons r rs ih =>
    intro idx cAt loaded
    by_cases hc : cAt = some 0
    · simp [loadLoop, hc, kmap]
    · by_cases hl : (zoom, r.tile_column, r.tile_row) ∈ loaded
      · have hb : is_tile_loaded loaded (zoom, r.tile_column, r.tile_row) = true := by
          simp [is_tile_loaded, hl]
        simp only [loadLoop, create_tile, if_neg hc, hb, if_true]
        exact ih (idx + 1) (decCancel cAt) loaded
      · have hb : is_tile_loaded loaded (zoom, r.tile_column, r.tile_row) = false := by
          simp [is_tile_loaded, hl]
        simp only [loadLoop, create_tile, if_neg hc, hb, Bool.false_eq_true, if_false]
        obtain ⟨ihst, ihfr, ihnd⟩ := ih (idx + 1) (decCancel cAt)
          (loaded ++ [(zoom, r.tile_column, r.tile_row)])
        refine ⟨?_, ?_, ?_⟩
        · simp only [kmap, List.map_cons, keyOf]
          rw [ihst]
          simp [kmap, keyOf]
        · intro k hk
          simp only [kmap, List.map_cons, keyOf, List.mem_cons] at hk
          rcases hk with hk | hk
          · subst hk; exact hl
          · have := ihfr k hk
            simp only [List.mem_append] at this
            exact fun hkl => this (Or.inl hkl)
        · simp only [kmap, List.map_cons, keyOf]
          refine List.Nodup.cons ?_ ihnd
          intro hmem
          have := ihfr _ hmem
          simp at this

/-- loadLoop_spec lifted to load_tiles. -/
theorem mb_load_tiles_spec (scheme : String) (db : TileDB) (zoom : Option ℤ)
    (bounds : Option Bounds) (maxTiles : Option ℕ) (fe : Bool) (cAt : Option ℕ)
    (loaded : List Key) :
    (load_tiles scheme db zoom bounds maxTiles fe cAt loaded).2.1
        = loaded ++ kmap zoom (load_tiles scheme db zoom bounds maxTiles fe cAt loaded).1
      ∧ (∀ k ∈ kmap zoom (load_tiles scheme db zoom bounds maxTiles fe cAt loaded).1,
          k ∉ loaded)
      ∧ (kmap zoom (load_tiles scheme db zoom bounds maxTiles fe cAt loaded).1).Nodup := by
  unfold load_tiles
  cases h : evalTilesQuery db zoom bounds maxTiles with
  | none => simp [kmap]
  | some rows =>
    by_cases he : rows.isEmpty
    · simp [he, kmap]
    · simp only [he, Bool.false_eq_true, if_false]
      exact loadLoop_spec scheme zoom fe rows 0 cAt loaded

/-- Across two calls with the same zoom argument on the same instance, every
tile coordinate is delivered at most once. -/
theorem mb_two_call_count (scheme : String) (db : TileDB) (z : Option ℤ)
    (b1 b2 : Option Bounds) (mt1 mt2 : Option ℕ) (fe1 fe2 : Bool) (cA1 cA2 : Option ℕ)
    (loaded0 : List Key) (t : VectorTile) :
    (((load_tiles scheme db z b1 mt1 fe1 cA1 loaded0).1 ++
        (load_tiles scheme db z b2 mt2 fe2 cA2
          (load_tiles scheme db z b1 mt1 fe1 cA1 loaded0).2.1).1).map Prod.fst).count t
      ≤ 1 := by
  obtain ⟨st1, fr1, nd1⟩ := mb_load_tiles_spec scheme db z b1 mt1 fe1 cA1 loaded0
  obtain ⟨st2, fr2, nd2⟩ := mb_load_tiles_spec scheme db z b2 mt2 fe2 cA2
    (load_tiles scheme db z b1 mt1 fe1 cA1 loaded0).2.1
  set r1 := (load_tiles scheme db z b1 mt1 fe1 cA1 loaded0).1 with hr1
  set r2 := (load_tiles scheme db z b2 mt2 fe2 cA2
    (load_tiles scheme db z b1 mt1 fe1 cA1 loaded0).2.1).1 with hr2
  have hdisj : List.Disjoint (kmap z r1) (kmap z r2) := by
    intro k hk1 hk2
    have h2 := fr2 k hk2
    rw [st1] at h2
    simp only [List.mem_append] at h2
    exact h2 (Or.inr hk1)
  have hnodup : (kmap z r1 ++ kmap z r2).Nodup :=
    List.nodup_append.2 ⟨nd1, nd2, hdisj⟩
  have hmapeq : ((r1 ++ r2).map Prod.fst).map (keyOf z) = kmap z r1 ++ kmap z r2 := by
    simp only [List.map_append, List.map_map, kmap]
    rfl
  refine count_le_one_of_map_nodup (keyOf z) ((r1 ++ r2).map Prod.fst) ?_ t
  rw [hmapeq]
  exact hnodup

/-- Cancelling at schedule position c delivers exactly the tiles of the
first c rows. -/
theorem loadLoop_cancel_take (scheme : String) (zoom : Option ℤ) (fe : Bool) :
    ∀ (rows : List TileRow) (c : ℕ) (idx : ℕ) (loaded : List Key),
      (loadLoop scheme zoom fe rows idx (some c) loaded).1
        = (loadLoop scheme zoom fe (rows.take c) idx none loaded).1 := by
  intro rows
  induction rows with
  | nil => intro c idx loaded; simp [loadLoop]
  | cons r rs ih =>
    intro c idx loaded
    cases c with
    | zero => simp [loadLoop]
    | succ c =>
      have hc : ((some (c + 1) : Option ℕ) = some 0) = False := by simp
      have hcn : ((none : Option ℕ) = some 0) = False := by simp
      have hd : decCancel (some (c + 1)) = some c := by simp [decCancel]
      have hdn : decCancel none = none := rfl
      simp only [List.take_succ_cons, loadLoop, hc, hcn, if_false, hd, hdn]
      by_cases hl : is_tile_loaded loaded (zoom, (create_tile scheme r).1.column,
          (create_tile scheme r).1.row)
      · simp only [hl, if_true]
        exact ih c (idx + 1) loaded
      · simp only [hl, Bool.false_eq_true, if_false]
        rw [ih c (idx + 1) _]

/-- The delivered tiles of an uncancelled loop split along a row-list
split. -/
theorem loadLoop_append (scheme : String) (zoom : Option ℤ) (fe : Bool) :
    ∀ (l1 l2 : List TileRow) (idx : ℕ) (loaded : List Key),
      (loadLoop scheme zoom fe (l1 ++ l2) idx none loaded).1
        = (loadLoop scheme zoom fe l1 idx none loaded).1 ++
          (loadLoop scheme zoom fe l2 (idx + l1.length) none
            (loadLoop scheme zoom fe l1 idx none loaded).2.1).1 := by
  intro l1
  induction l1 with
  | nil => intro l2 idx loaded; simp [loadLoop]
  | cons r rs ih =>
    intro l2 idx loaded
    have hc : ((none : Option ℕ) = some 0) = False := by simp
    have hdn : decCancel none = none := rfl
    simp only [List.cons_append, loadLoop, hc, if_false, hdn, List.append_eq]
    by_cases hl : is_tile_loaded loaded (zoom, (create_tile scheme r).1.column,
        (create_tile scheme r).1.row)
    · simp only [hl, if_true]
      rw [ih l2 (idx + 1) loaded]
      simp only [List.length_cons]
      have heq : idx + 1 + rs.length = idx + (rs.length + 1) := by omega
      rw [heq]
    · simp only [hl, Bool.false_eq_true, if_false]
      rw [ih l2 (idx + 1) _]
      simp only [List.length_cons, List.cons_append]
      have heq : idx + 1 + rs.length = idx + (rs.length + 1) := by omega
      rw [heq]

/-- A cancelled archive load is an initial segment of the uncancelled
load. -/
theorem mb_cancel_initial_segment (scheme : String) (db : TileDB) (zoom : Option ℤ)
    (bounds : Option Bounds) (maxTiles : Option ℕ) (fe : Bool) (loaded : List Key) (c : ℕ) :
    (load_tiles scheme db zoom bounds maxTiles fe (some c) loaded).1 <+:
      (load_tiles scheme db zoom bounds maxTiles fe none loaded).1 := by
  unfold load_tiles
  cases h : evalTilesQuery db zoom bounds maxTiles with
  | none => simp
  | some rows =>
    by_cases he : rows.isEmpty
    · simp [he]
    · simp only [he, Bool.false_eq_true, if_false]
      rw [loadLoop_cancel_take scheme zoom fe rows c 0 loaded]
      have hsplit := loadLoop_append scheme zoom fe (rows.take c) (rows.drop c) 0 loaded
      rw [List.take_append_drop] at hsplit
      rw [hsplit]
      exact ⟨_, rfl⟩

end MBTilesSource

namespace ServerSource

/-- The collected urls enumerate a sub-selection of the candidate tiles. -/
theorem collect_crs_sublist (template : String) (zoom : ℤ) (maxTiles : Option ℕ)
    (loaded : List Key) :
    ∀ (cands : List (ℤ × ℤ)) (idx : ℕ),
      List.Sublist ((collectUrls template zoom maxTiles loaded cands idx).map crsOfU)
        cands := by
  intro cands
  induction cands with
  | nil => intro idx; simp [collectUrls]
  | cons t ts ih =>
    intro idx
    by_cases hl : is_tile_loaded loaded (zoom, t.1, t.2)
    · simp only [collectUrls, hl, if_true]
      exact List.Sublist.trans (ih (idx + 1)) (List.sublist_cons_self t ts)
    · simp only [collectUrls, hl, Bool.false_eq_true, if_false]
      by_cases hb : breakAtMax maxTiles idx
      · simp only [hb, if_true, List.map_cons, List.map_nil]
        have he : crsOfU (build_url template zoom t.1 t.2, t.1, t.2) = t := rfl
        rw [he]
        exact List.Sublist.cons₂ t (List.nil_sublist ts)
      · simp only [hb, Bool.false_eq_true, if_false, List.map_cons]
        have he : crsOfU (build_url template zoom t.1 t.2, t.1, t.2) = t := rfl
        rw [he]
        exact List.Sublist.cons₂ t (ih (idx + 1))

/-- Every collected url names a tile that is not in the loaded list. -/
theorem collect_fresh (template : String) (zoom : ℤ) (maxTiles : Option ℕ)
    (loaded : List Key) :
    ∀ (cands : List (ℤ × ℤ)) (idx : ℕ) (u : UrlEntry),
      u ∈ collectUrls template zoom maxTiles loaded cands idx →
        (zoom, u.2.1, u.2.2) ∉ loaded := by
  intro cands
  induction cands with
  | nil => intro idx u hu; simp [collectUrls] at hu
  | cons t ts ih =>
    intro idx u hu
    by_cases hl : is_tile_loaded loaded (zoom, t.1, t.2)
    · simp only [collectUrls, hl, if_true] at hu
      exact ih (idx + 1) u hu
    · simp only [collectUrls, hl, Bool.false_eq_true, if_false] at hu
      have hfresh : (zoom, t.1, t.2) ∉ loaded := by
        simpa [is_tile_loaded] using hl
      by_cases hb : breakAtMax maxTiles idx
      · simp only [hb, if_true, List.mem_singleton] at hu
        subst hu
        exact hfresh
      · simp only [hb, Bool.false_eq_true, if_false, List.mem_cons] at hu
        rcases hu with hu | hu
        · subst hu
          exact hfresh
        · exact ih (idx + 1) u hu

/-- The queue entries of one page are a sub-selection of the page urls. -/
theorem pageResults_crs_sublist (fetch : String → Option ℕ) :
    ∀ (items : List UrlEntry),
      List.Sublist ((pageResults fetch items).map crsOfQ) (items.map crsOfU) := by
  intro items
  induction items with
  | nil => simp [pageResults]
  | cons u us ih =>
    cases hf : fetch u.1 with
    | none =>
      have he : pageResults fetch (u :: us) = pageResults fetch us := by
        simp [pageResults, List.filterMap_cons, hf]
      rw [he, List.map_cons]
      exact List.Sublist.trans ih (List.sublist_cons_self (crsOfU u) (us.map crsOfU))
    | some content =>
      have he : pageResults fetch (u :: us)
          = (content, u.2.1, u.2.2) :: pageResults fetch us := by
        simp [pageResults, List.filterMap_cons, hf]
      rw [he]
      simp only [List.map_cons]
      exact List.Sublist.cons₂ _ ih

/-- The drained queue of the paged fetch is a sub-selection of the urls. -/
theorem do_paged_go_crs_sublist (fetch : String → Option ℕ) (fe : Bool) (ps : ℕ) :
    ∀ (fuel : ℕ) (remaining : List UrlEntry) (pageNr : ℕ) (cAt : Option ℕ),
      List.Sublist (((do_paged_go fetch fe ps fuel remaining pageNr cAt).1).map crsOfQ)
        (remaining.map crsOfU) := by
  intro fuel
  induction fuel with
  | zero => intro remaining pageNr cAt; simp [do_paged_go]
  | succ fuel ih =>
    intro remaining pageNr cAt
    simp only [do_paged_go]
    by_cases hc : cAt = some 0 ∨ List.take ps remaining = []
    · rw [if_pos hc]
      simp
    · rw [if_neg hc]
      simp only [List.map_append]
      have h1 := pageResults_crs_sublist fetch (remaining.take ps)
      have h2 := ih (remaining.drop ps) (pageNr + ps)
        (load_urls_async fe (pageNr * ps) (remaining.take ps) 0 (decCancel cAt)).2
      have hsplit : (remaining.take ps).map crsOfU ++ (remaining.drop ps).map crsOfU
          = remaining.map crsOfU := by
        rw [← List.map_append, List.take_append_drop]
      rw [← hsplit]
      exact List.Sublist.append h1 h2

/-- The candidate enumeration of a bounds rectangle has no duplicates. -/
theorem get_all_tiles_nodup (b : Bounds) : (get_all_tiles b).Nodup := by
  refine List.Nodup.map ?_
    (List.Nodup.product (List.nodup_range ((b.2.1 - b.1.1 + 1).toNat))
      (List.nodup_range ((b.2.2 - b.1.2 + 1).toNat)))
  intro p q hpq
  simp only [Prod.mk.injEq, add_right_inj, Nat.cast_inj] at hpq
  exact Prod.ext hpq.1 hpq.2

/-- The loaded-list invariant of the remote source: the loaded list grows by
exactly the delivered keys, every delivered key is fresh, and the delivered
keys are pairwise distinct. -/
theorem srv_load_tiles_spec (template scheme : String) (fetch : String → Option ℕ)
    (zoom : ℤ) (bounds : Bounds) (maxTiles : Option ℕ) (fe : Bool) (cAt : Option ℕ)
    (loaded : List Key) :
    (load_tiles template scheme fetch zoom bounds maxTiles fe cAt loaded).2.1
        = loaded ++
          skmap zoom (load_tiles template scheme fetch zoom bounds maxTiles fe cAt loaded).1
      ∧ (∀ k ∈ skmap zoom (load_tiles template scheme fetch zoom bounds maxTiles fe cAt
          loaded).1, k ∉ loaded)
      ∧ (skmap zoom
          (load_tiles template scheme fetch zoom bounds maxTiles fe cAt loaded).1).Nodup := by
  simp only [load_tiles]
  have hskmap : ∀ (qs : List QueueEntry),
      skmap zoom (qs.map (fun q => ((⟨scheme, zoom, q.2.1, q.2.2⟩ : VectorTile), q.1)))
        = (qs.map crsOfQ).map (fun cr => (zoom, cr.1, cr.2)) := by
    intro qs
    simp only [skmap, skeyOf, crsOfQ, List.map_map]
    rfl
  have hcrs : List.Sublist
      ((do_paged fetch fe 5
          (collectUrls template zoom maxTiles loaded (get_all_tiles bounds) 0) cAt).1.map
        crsOfQ)
      ((collectUrls template zoom maxTiles loaded (get_all_tiles bounds) 0).map crsOfU) :=
    do_paged_go_crs_sublist fetch fe 5 _ _ 0 cAt
  have hfreshu := collect_fresh template zoom maxTiles loaded (get_all_tiles bounds) 0
  have hurlsnd : ((collectUrls template zoom maxTiles loaded (get_all_tiles bounds) 0).map
      crsOfU).Nodup :=
    (get_all_tiles_nodup bounds).sublist
      (collect_crs_sublist template zoom maxTiles loaded (get_all_tiles bounds) 0)
  refine ⟨?_, ?_, ?_⟩
  · rw [hskmap]
    congr 1
    simp only [List.map_map]
    rfl
  · intro k hk
    rw [hskmap] at hk
    obtain ⟨cr, hcr, rfl⟩ := List.mem_map.1 hk
    have hcru : cr ∈ (collectUrls template zoom maxTiles loaded (get_all_tiles bounds) 0).map
        crsOfU := hcrs.subset hcr
    obtain ⟨u, hu, hue⟩ := List.mem_map.1 hcru
    have he : (zoom, cr.1, cr.2) = (zoom, u.2.1, u.2.2) := by rw [← hue]; rfl
    rw [he]
    exact hfreshu u hu
  · rw [hskmap]
    refine List.Nodup.map ?_ (hurlsnd.sublist hcrs)
    intro a b hab
    simp only [Prod.mk.injEq, true_and] at hab
    exact Prod.ext hab.1 hab.2

/-- Across two calls with the same zoom argument on the same remote
instance, every tile coordinate is delivered at most once. -/
theorem srv_two_call_count (template scheme : String) (fetch : String → Option ℕ)
    (z : ℤ) (b1 b2 : Bounds) (mt1 mt2 : Option ℕ) (fe1 fe2 : Bool) (cA1 cA2 : Option ℕ)
    (loaded0 : List Key) (t : VectorTile) :
    (((load_tiles template scheme fetch z b1 mt1 fe1 cA1 loaded0).1 ++
        (load_tiles template scheme fetch z b2 mt2 fe2 cA2
          (load_tiles template scheme fetch z b1 mt1 fe1 cA1 loaded0).2.1).1).map
        Prod.fst).count t ≤ 1 := by
  obtain ⟨st1, fr1, nd1⟩ := srv_load_tiles_spec template scheme fetch z b1 mt1 fe1 cA1 loaded0
  obtain ⟨st2, fr2, nd2⟩ := srv_load_tiles_spec template scheme fetch z b2 mt2 fe2 cA2
    (load_tiles template scheme fetch z b1 mt1 fe1 cA1 loaded0).2.1
  set r1 := (load_tiles template scheme fetch z b1 mt1 fe1 cA1 loaded0).1 with hr1
  set r2 := (load_tiles template scheme fetch z b2 mt2 fe2 cA2
    (load_tiles template scheme fetch z b1 mt1 fe1 cA1 loaded0).2.1).1 with hr2
  have hdisj : List.Disjoint (skmap z r1) (skmap z r2) := by
    intro k hk1 hk2
    have h2 := fr2 k hk2
    rw [st1] at h2
    simp only [List.mem_append] at h2
    exact h2 (Or.inr hk1)
  have hnodup : (skmap z r1 ++ skmap z r2).Nodup :=
    List.nodup_append.2 ⟨nd1, nd2, hdisj⟩
  have hmapeq : ((r1 ++ r2).map Prod.fst).map (skeyOf z) = skmap z r1 ++ skmap z r2 := by
    simp only [List.map_append, List.map_map, skmap]
    rfl
  refine count_le_one_of_map_nodup (skeyOf z) ((r1 ++ r2).map Prod.fst) ?_ t
  rw [hmapeq]
  exact hnodup

/-- A join loop run with the never-set schedule leaves the schedule
never-set. -/
theorem lua_cancel_arg_none (fe : Bool) (off : ℕ) :
    ∀ (items : List UrlEntry) (idx : ℕ),
      (load_urls_async fe off items idx none).2 = none := by
  intro items
  induction items with
  | nil => intro idx; simp [load_urls_async]
  | cons u us ih =>
    intro idx
    have hc : ((none : Option ℕ) = some 0) = False := by simp
    have hdn : decCancel none = none := rfl
    simp only [load_urls_async, hc, if_false, hdn]
    exact ih (idx + 1)

/-- A cancelled paged fetch drains an initial segment of the queue of the
uncancelled fetch. -/
theorem do_paged_go_initial_segment (fetch : String → Option ℕ) (fe : Bool) (ps : ℕ) :
    ∀ (fuel : ℕ) (remaining : List UrlEntry) (pageNr : ℕ) (cAt : Option ℕ),
      (do_paged_go fetch fe ps fuel remaining pageNr cAt).1 <+:
        (do_paged_go fetch fe ps fuel remaining pageNr none).1 := by
  intro fuel
  induction fuel with
  | zero => intro r p c; simp [do_paged_go]
  | succ fuel ih =>
    intro remaining pageNr cAt
    simp only [do_paged_go]
    by_cases ht : List.take ps remaining = []
    · rw [if_pos (Or.inr ht), if_pos (Or.inr ht)]
    · by_cases hcc : cAt = some 0
      · have hnn : ¬ ((none : Option ℕ) = some 0 ∨ List.take ps remaining = []) := by
          simp [ht]
        rw [if_pos (Or.inl hcc), if_neg hnn]
        exact List.nil_prefix
      · have hnc : ¬ (cAt = some 0 ∨ List.take ps remaining = []) := by tauto
        have hnn : ¬ ((none : Option ℕ) = some 0 ∨ List.take ps remaining = []) := by
          simp [ht]
        rw [if_neg hnc, if_neg hnn]
        refine isPrefix_append_left _ ?_
        have he : (load_urls_async fe (pageNr * ps) (List.take ps remaining) 0
            (decCancel none)).2 = none := by
          rw [show decCancel none = (none : Option ℕ) from rfl]
          exact lua_cancel_arg_none fe (pageNr * ps) (List.take ps remaining) 0
        rw [he]
        exact ih (remaining.drop ps) (pageNr + ps) _

/-- A cancelled remote load is an initial segment of the uncancelled
load. -/
theorem srv_cancel_initial_segment (template scheme : String) (fetch : String → Option ℕ)
    (zoom : ℤ) (bounds : Bounds) (maxTiles : Option ℕ) (fe : Bool)
    (loaded : List Key) (c : ℕ) :
    (load_tiles template scheme fetch zoom bounds maxTiles fe (some c) loaded).1 <+:
      (load_tiles template scheme fetch zoom bounds maxTiles fe none loaded).1 := by
  simp only [load_tiles, do_paged]
  exact List.IsPrefix.map _
    (do_paged_go_initial_segment fetch fe 5 _
      (collectUrls template zoom maxTiles loaded (get_all_tiles bounds) 0) 0 (some c))

end ServerSource

/-- C1 (amended): for every pair of load_tiles calls on the same source
instance (archive or remote) with the same zoom_level argument, any tile
coordinate is returned at most once in total across both calls, for every
pair of bounds, every max_tiles, every cancellation schedule and every
starting loaded-tile list: a tile delivered by the first call is never
delivered again by the second, because the loaded-tile list is never cleared
during the lifetime of the instance.  (The unamended claim, without the
same-zoom-argument condition, fails: see the counterexample.) -/
theorem C1_dedup_same_zoom_argument :
    (∀ (scheme : String) (db : TileDB) (z : Option ℤ) (b1 b2 : Option Bounds)
      (mt1 mt2 : Option ℕ) (fe1 fe2 : Bool) (cA1 cA2 : Option ℕ)
      (loaded0 : List MBTilesSource.Key) (t : VectorTile),
      (((MBTilesSource.load_tiles scheme db z b1 mt1 fe1 cA1 loaded0).1 ++
          (MBTilesSource.load_tiles scheme db z b2 mt2 fe2 cA2
            (MBTilesSource.load_tiles scheme db z b1 mt1 fe1 cA1 loaded0).2.1).1).map
          Prod.fst).count t ≤ 1) ∧
    (∀ (template scheme : String) (fetch : String → Option ℕ) (z : ℤ) (b1 b2 : Bounds)
      (mt1 mt2 : Option ℕ) (fe1 fe2 : Bool) (cA1 cA2 : Option ℕ)
      (loaded0 : List ServerSource.Key) (t : VectorTile),
      (((ServerSource.load_tiles template scheme fetch z b1 mt1 fe1 cA1 loaded0).1 ++
          (ServerSource.load_tiles template scheme fetch z b2 mt2 fe2 cA2
            (ServerSource.load_tiles template scheme fetch z b1 mt1 fe1 cA1
              loaded0).2.1).1).map Prod.fst).count t ≤ 1) :=
  ⟨fun scheme db z b1 b2 mt1 mt2 fe1 fe2 cA1 cA2 loaded0 t =>
      MBTilesSource.mb_two_call_count scheme db z b1 b2 mt1 mt2 fe1 fe2 cA1 cA2 loaded0 t,
    fun template scheme fetch z b1 b2 mt1 mt2 fe1 fe2 cA1 cA2 loaded0 t =>
      ServerSource.srv_two_call_count template scheme fetch z b1 b2 mt1 mt2 fe1 fe2 cA1 cA2
        loaded0 t⟩

/-- C3 (amended): for every load_tiles run with the cancel flag set at any
poll of the schedule, on either source variant, the returned tile sequence is
an initial segment (a possibly improper prefix) of the sequence the same call
returns without cancellation — it never contains a tile the uncancelled run
would not contain, and never more tiles.  The segment is proper whenever
undelivered work remains at the cancellation point, but not in general: see
the counterexample for strictness. -/
theorem C3_cancel_initial_segment :
    (∀ (scheme : String) (db : TileDB) (zoom : Option ℤ) (bounds : Option Bounds)
      (maxTiles : Option ℕ) (fe : Bool) (loaded : List MBTilesSource.Key) (c : ℕ),
      (MBTilesSource.load_tiles scheme db zoom bounds maxTiles fe (some c) loaded).1 <+:
        (MBTilesSource.load_tiles scheme db zoom bounds maxTiles fe none loaded).1) ∧
    (∀ (template scheme : String) (fetch : String → Option ℕ) (zoom : ℤ) (bounds : Bounds)
      (maxTiles : Option ℕ) (fe : Bool) (loaded : List ServerSource.Key) (c : ℕ),
      (ServerSource.load_tiles template scheme fetch zoom bounds maxTiles fe (some c)
          loaded).1 <+:
        (ServerSource.load_tiles template scheme fetch zoom bounds maxTiles fe none
          loaded).1) :=
  ⟨fun scheme db zoom bounds maxTiles fe loaded c =>
      MBTilesSource.mb_cancel_initial_segment scheme db zoom bounds maxTiles fe loaded c,
    fun template scheme fetch zoom bounds maxTiles fe loaded c =>
      ServerSource.srv_cancel_initial_segment template scheme fetch zoom bounds maxTiles fe
        loaded c⟩

end VTR
